import Mathlib

/-!
Shallow embedding of the two concurrency utilities from
`src/22_Promises.js` (sections 6.1 and 6.2 of the file):

* `PromiseQueue` — a strictly sequential task queue.  `enqueue(promiseFunc)`
  pushes `{promiseFunc, resolve, reject}` on `this.queue` and calls
  `processQueue()`.  `processQueue` returns at once when `this.processing`
  is already `true`; otherwise it sets `processing := true` and loops:
  while the queue is non-empty it shifts the head, awaits its
  `promiseFunc()`, and resolves or rejects that entry's promise with the
  outcome; when the queue empties it sets `processing := false`.

* `PromisePool` — a bounded-concurrency pool.  The constructor stores
  `maxConcurrent`, `running = 0`, `queue = []` without any validation.
  `add(promiseFunc)` checks once whether `running >= maxConcurrent`; if so
  it pushes a resolver on `queue` and awaits it; afterwards (or at once)
  it increments `running`, awaits `promiseFunc()`, and in the `finally`
  block decrements `running` and resolves the oldest queued resolver, if
  any.

JavaScript runs these on a single thread: each synchronous block between
two `await` suspension points is atomic, and the only nondeterminism is
the order in which suspended continuations are resumed relative to other
user activity (the microtask queue).  We therefore model each class as a
deterministic step function over an explicit event alphabet; an event list
encodes one possible schedule, and quantifying over event lists covers
every schedule (a superset of those the JavaScript microtask queue can
realize, which we only use in the safe direction: universally quantified
theorems are proved over all schedules, and every counterexample schedule
exhibited below is one the real event loop can produce).

Task operations are opaque zero-argument async functions; we identify a
task by the `Nat` label its submitter chooses and its operation's result
by an `Outcome` (fulfilled value or rejection reason, both opaque `Nat`s).
-/

/-- Settlement outcome of a promise: fulfilled with a value or rejected
with an error reason.  Values and reasons are opaque labels. -/
inductive Outcome where
  | ok (v : Nat) : Outcome
  | err (e : Nat) : Outcome
deriving DecidableEq, Repr

namespace PromiseQueue

/-- State of a `PromiseQueue` instance between atomic execution blocks.

`queue` and `processing` are the two fields of the class.  `awaiting`
lists the tasks that have been shifted from the queue and whose
`promiseFunc()` is currently being awaited inside some invocation of
`processQueue` (the code intends at most one; we keep a list so that the
single-awaited property is a theorem rather than a modelling assumption).
`enqueued`, `started`, `settled` are history variables recording, in
order: every task passed to `enqueue`, every task whose operation was
invoked, and every task whose result promise was resolved/rejected
together with its outcome. -/
structure State where
  queue : List Nat
  processing : Bool
  awaiting : List Nat
  enqueued : List Nat
  started : List Nat
  settled : List (Nat × Outcome)
deriving DecidableEq, Repr

/-- The freshly constructed queue: `this.queue = []`, `this.processing = false`. -/
def init : State :=
  { queue := [], processing := false, awaiting := [], enqueued := [],
    started := [], settled := [] }

/-- One decision point of the `while (this.queue.length > 0)` loop, entered
with no operation currently being awaited by this loop instance: if the
queue is non-empty, shift the head and start awaiting its `promiseFunc()`;
otherwise set `processing = false` and return. -/
def loopIter (s : State) : State :=
  match s.queue with
  | [] => { s with processing := false }
  | h :: t =>
      { s with queue := t, awaiting := s.awaiting ++ [h],
               started := s.started ++ [h] }

/-- `processQueue()`: return immediately when `processing` is set (the
re-entrancy guard), else set it and run the first loop iteration. -/
def processQueue (s : State) : State :=
  if s.processing then s
  else loopIter { s with processing := true }

/-- Events of the queue machine.  `enq i` is a caller invoking
`enqueue` with task `i` (the push and the synchronous `processQueue()`
call form one atomic block).  `fin o` is the settlement of the operation
currently being awaited: the block from the `await` resuming through
`resolve(result)` / `reject(error)` and on to the next loop check is
synchronous, hence one atomic step. -/
inductive Event where
  | enq (i : Nat) : Event
  | fin (o : Outcome) : Event
deriving DecidableEq, Repr

/-- The deterministic step function of the `PromiseQueue` machine. -/
def step (s : State) (e : Event) : State :=
  match e with
  | .enq i =>
      processQueue { s with queue := s.queue ++ [i], enqueued := s.enqueued ++ [i] }
  | .fin o =>
      match s.awaiting with
      | [] => s
      | c :: rest =>
          loopIter { s with awaiting := rest, settled := s.settled ++ [(c, o)] }

/-- Run the machine from the fresh instance over a schedule. -/
def run (es : List Event) : State :=
  es.foldl step init

/-- The inductive invariant of reachable `PromiseQueue` states:
the flag is down exactly when nothing is queued or awaited; at most one
operation is awaited at a time; the submission history decomposes as
settled tasks, then the awaited one, then the still-queued ones; and the
start history is exactly settled tasks followed by the awaited one. -/
def Inv (s : State) : Prop :=
  (s.processing = false → s.queue = [] ∧ s.awaiting = []) ∧
  s.awaiting.length ≤ 1 ∧
  s.enqueued = s.settled.map Prod.fst ++ s.awaiting ++ s.queue ∧
  s.started = s.settled.map Prod.fst ++ s.awaiting

end PromiseQueue

namespace PromisePool

/-- State of a `PromisePool` instance between atomic execution blocks.

`maxConcurrent`, `running`, `queue` are the three fields of the class
(JavaScript numbers are embedded as `Int`; the constructor accepts any
value).  `queue` holds, in push order, the identities of the `add` calls
whose resolver was pushed by `await new Promise(resolve => this.queue.push(resolve))`
and not yet shifted.  `resolvedP` holds the `add` calls whose resolver has
been invoked by a finishing task (`this.queue.shift()()`) but whose
suspended continuation has not yet been resumed by the event loop — a real
window in the microtask queue.  `executing` holds the calls currently
awaiting their `promiseFunc()`.  `done` records each completed call with
the outcome its returned promise settles with.  `started` and `added` are
history variables: the order in which operations were invoked, and the
order of `add` invocations. -/
structure State where
  maxConcurrent : Int
  running : Int
  queue : List Nat
  resolvedP : List Nat
  executing : List Nat
  done : List (Nat × Outcome)
  started : List Nat
  added : List Nat
deriving DecidableEq, Repr

/-- The constructor body of `PromisePool`: store `maxConcurrent`, set
`running = 0` and `queue = []`.  It contains no validation and no `throw`,
so the embedding (with an explicit exception channel, as any JavaScript
constructor could throw) always returns normally. -/
def construct (maxConcurrent : Int) : Except String State :=
  .ok { maxConcurrent := maxConcurrent, running := 0, queue := [],
        resolvedP := [], executing := [], done := [], started := [],
        added := [] }

/-- The normally-constructed pool state for a given `maxConcurrent`. -/
def mk (maxConcurrent : Int) : State :=
  { maxConcurrent := maxConcurrent, running := 0, queue := [],
    resolvedP := [], executing := [], done := [], started := [],
    added := [] }

/-- Events of the pool machine.

`call i` — a caller invokes `add(promiseFunc)`, naming this invocation
`i` (fresh identifiers only; a repeated identifier is ignored).  The
synchronous prefix of `add` runs atomically: the `running >= maxConcurrent`
test, then either pushing a resolver and suspending, or `running++` and
invoking `promiseFunc()` up to the `await`.

`finish i o` — the operation of executing call `i` settles with outcome
`o`; the continuation runs the `finally` block (`running--`, shift and
invoke the oldest queued resolver if any) and settles `add`'s returned
promise with `o`, all in one synchronous block.

`resume i` — the event loop resumes the continuation of a call whose
resolver has already been invoked: it proceeds past the `await`, runs
`running++` (without re-checking the limit — exactly as the code does) and
invokes its `promiseFunc()` up to the `await`. -/
inductive Event where
  | call (i : Nat) : Event
  | finish (i : Nat) (o : Outcome) : Event
  | resume (i : Nat) : Event
deriving DecidableEq, Repr

/-- The deterministic step function of the `PromisePool` machine. -/
def step (s : State) (e : Event) : State :=
  match e with
  | .call i =>
      if i ∈ s.added then s
      else if s.running ≥ s.maxConcurrent then
        { s with queue := s.queue ++ [i], added := s.added ++ [i] }
      else
        { s with running := s.running + 1, executing := s.executing ++ [i],
                 started := s.started ++ [i], added := s.added ++ [i] }
  | .finish i o =>
      if i ∈ s.executing then
        match s.queue with
        | [] =>
            { s with executing := s.executing.erase i,
                     running := s.running - 1, done := s.done ++ [(i, o)] }
        | w :: ws =>
            { s with executing := s.executing.erase i,
                     running := s.running - 1, done := s.done ++ [(i, o)],
                     queue := ws, resolvedP := s.resolvedP ++ [w] }
      else s
  | .resume i =>
      if i ∈ s.resolvedP then
        { s with resolvedP := s.resolvedP.erase i,
                 running := s.running + 1, executing := s.executing ++ [i],
                 started := s.started ++ [i] }
      else s

/-- Run the pool machine from a fresh pool over a schedule. -/
def run (maxConcurrent : Int) (es : List Event) : State :=
  es.foldl step (mk maxConcurrent)

/-- The schedule in which callers invoke `add` with the fresh
identifiers `0, 1, ..., n-1`, in that order, with no intervening
completions or resumptions. -/
def submitCalls (n : Nat) : List Event :=
  (List.range n).map Event.call

end PromisePool

namespace PromiseQueue

theorem inv_init : Inv init := by
  simp [Inv, init]

theorem inv_step (s : State) (e : Event) (h : Inv s) : Inv (step s e) := by
  obtain ⟨h1, h2, h3, h4⟩ := h
  cases e with
  | enq i =>
      cases hp : s.processing with
      | true =>
          refine ⟨?_, ?_, ?_, ?_⟩ <;>
            simp [step, processQueue, hp, h2, h4, h3, List.append_assoc]
      | false =>
          obtain ⟨hq1, hq2⟩ := h1 hp
          refine ⟨?_, ?_, ?_, ?_⟩ <;>
            simp [step, processQueue, hp, loopIter, hq1, hq2] <;>
            simp [hq1, hq2] at h3 h4 <;> simp [h3, h4]
  | fin o =>
      cases ha : s.awaiting with
      | nil =>
          have hs : step s (Event.fin o) = s := by simp [step, ha]
          rw [hs]
          exact ⟨h1, h2, h3, h4⟩
      | cons c rest =>
          have hrest : rest = [] := by
            have hlen := h2
            rw [ha] at hlen
            simpa using hlen
          subst hrest
          have hp : s.processing = true := by
            cases hp' : s.processing with
            | true => rfl
            | false => exact absurd (h1 hp').2 (by simp [ha])
          cases hqq : s.queue with
          | nil =>
              refine ⟨?_, ?_, ?_, ?_⟩ <;>
                simp [step, ha, loopIter, hqq] <;>
                simp [ha, hqq] at h3 h4 <;> simp [h3, h4]
          | cons q qs =>
              refine ⟨?_, ?_, ?_, ?_⟩ <;>
                simp [step, ha, loopIter, hqq, hp] <;>
                simp [ha, hqq] at h3 h4 <;> simp [h3, h4]

theorem inv_run (es : List Event) : Inv (run es) := by
  have main : ∀ (l : List Event) (s : State), Inv s → Inv (l.foldl step s) := by
    intro l
    induction l with
    | nil => intro s hs; simpa using hs
    | cons e l ih => intro s hs; exact ih (step s e) (inv_step s e hs)
  exact main es init inv_init

end PromiseQueue


/-- Claim C3: with the implicit concurrency 1 of `PromiseQueue`, tasks
begin executing in exactly their submission order: along every schedule,
the submission history equals the start history followed by the tasks
still waiting in the queue, so the started tasks are always an initial
segment of the submissions in the same order (in particular three tasks
enqueued as T1, T2, T3 start in the order T1, T2, T3). -/
theorem promiseQueue_tasks_start_in_submission_order
    (es : List PromiseQueue.Event) :
    (PromiseQueue.run es).enqueued
      = (PromiseQueue.run es).started ++ (PromiseQueue.run es).queue := by
  obtain ⟨_, _, h3, h4⟩ := PromiseQueue.inv_run es
  rw [h3, h4, List.append_assoc]

/-- Claim C4: a rejecting task stops neither the scheduler nor later
tasks.  From any quiescent reachable state, enqueueing a task that
rejects with reason `e` and then one that fulfills with value `v` settles
the first handle with exactly the rejection, then the second with exactly
the fulfillment, and returns the scheduler to its quiescent (not stuck)
state. -/
theorem promiseQueue_failure_does_not_block
    (es : List PromiseQueue.Event) (t1 t2 e v : Nat)
    (h : (PromiseQueue.run es).processing = false) :
    (PromiseQueue.run (es ++ [.enq t1, .enq t2, .fin (.err e), .fin (.ok v)])).settled
        = (PromiseQueue.run es).settled ++ [(t1, .err e), (t2, .ok v)] ∧
    (PromiseQueue.run (es ++ [.enq t1, .enq t2, .fin (.err e), .fin (.ok v)])).processing
        = false := by
  obtain ⟨h1, _, _, _⟩ := PromiseQueue.inv_run es
  obtain ⟨hq, ha⟩ := h1 h
  have hsplit :
      PromiseQueue.run (es ++ [.enq t1, .enq t2, .fin (.err e), .fin (.ok v)])
        = [PromiseQueue.Event.enq t1, .enq t2, .fin (.err e),
           .fin (.ok v)].foldl PromiseQueue.step (PromiseQueue.run es) := by
    simp [PromiseQueue.run, List.foldl_append]
  rw [hsplit]
  simp [PromiseQueue.step, PromiseQueue.processQueue, PromiseQueue.loopIter,
        hq, ha, h]

/-- Witness for claim C4 at the empty prior schedule, a task rejecting
with reason 7 and a task fulfilling with value 5. -/
theorem promiseQueue_failure_does_not_block_witness :
    (PromiseQueue.run ([] ++ [.enq 0, .enq 1, .fin (.err 7), .fin (.ok 5)])).settled
        = (PromiseQueue.run []).settled ++ [(0, .err 7), (1, .ok 5)] ∧
    (PromiseQueue.run ([] ++ [.enq 0, .enq 1, .fin (.err 7), .fin (.ok 5)])).processing
        = false :=
  promiseQueue_failure_does_not_block [] 0 1 7 5 (by decide)

/-- Claim C5: each submitted task is settled exactly once, matching a
single execution of its operation.  Along every schedule the settled
tasks form an initial segment of the submission history (so no handle is
settled more often than its task was submitted, and settlement follows a
start of the operation recorded exactly once in `started`); and whenever
the queue has drained back to quiescence, the settlement history and the
start history both equal the whole submission history: every task was
started exactly once and its handle settled exactly once, with the
outcome its operation produced. -/
theorem promiseQueue_each_task_settled_exactly_once
    (es : List PromiseQueue.Event) :
    (PromiseQueue.run es).enqueued
        = ((PromiseQueue.run es).settled.map Prod.fst)
            ++ (PromiseQueue.run es).awaiting ++ (PromiseQueue.run es).queue ∧
    ((PromiseQueue.run es).processing = false →
      (PromiseQueue.run es).enqueued
          = ((PromiseQueue.run es).settled.map Prod.fst) ∧
      (PromiseQueue.run es).started = (PromiseQueue.run es).enqueued) := by
  obtain ⟨h1, _, h3, h4⟩ := PromiseQueue.inv_run es
  refine ⟨h3, ?_⟩
  intro h
  obtain ⟨hq, ha⟩ := h1 h
  constructor
  · rw [h3, hq, ha]
    simp
  · rw [h4, h3, hq, ha]
    simp

/-- Witness for claim C5 on a drained schedule of two tasks. -/
theorem promiseQueue_each_task_settled_exactly_once_witness :
    (PromiseQueue.run [.enq 4, .enq 9, .fin (.ok 1), .fin (.err 2)]).enqueued
        = ((PromiseQueue.run [.enq 4, .enq 9, .fin (.ok 1), .fin (.err 2)]).settled.map
            Prod.fst)
            ++ (PromiseQueue.run [.enq 4, .enq 9, .fin (.ok 1), .fin (.err 2)]).awaiting
            ++ (PromiseQueue.run [.enq 4, .enq 9, .fin (.ok 1), .fin (.err 2)]).queue ∧
    ((PromiseQueue.run [.enq 4, .enq 9, .fin (.ok 1), .fin (.err 2)]).enqueued
        = ((PromiseQueue.run [.enq 4, .enq 9, .fin (.ok 1), .fin (.err 2)]).settled.map
            Prod.fst) ∧
    (PromiseQueue.run [.enq 4, .enq 9, .fin (.ok 1), .fin (.err 2)]).started
        = (PromiseQueue.run [.enq 4, .enq 9, .fin (.ok 1), .fin (.err 2)]).enqueued) :=
  ⟨(promiseQueue_each_task_settled_exactly_once
      [.enq 4, .enq 9, .fin (.ok 1), .fin (.err 2)]).1,
   (promiseQueue_each_task_settled_exactly_once
      [.enq 4, .enq 9, .fin (.ok 1), .fin (.err 2)]).2 (by decide)⟩

/-- Claim C9: `processQueue` is re-entrancy guarded.  First part: an
`enqueue` arriving while the `processing` flag is up only appends to the
queue and the submission history — it dequeues nothing and starts
nothing, for every state whatsoever.  Second part: consequently, along
every schedule at most one task's operation is being awaited at any
time — execution is strictly sequential with an implicit concurrency of
exactly 1. -/
theorem promiseQueue_reentrancy_guard :
    (∀ (s : PromiseQueue.State) (i : Nat), s.processing = true →
      PromiseQueue.step s (.enq i)
        = { s with queue := s.queue ++ [i], enqueued := s.enqueued ++ [i] }) ∧
    (∀ es : List PromiseQueue.Event,
      (PromiseQueue.run es).awaiting.length ≤ 1) := by
  constructor
  · intro s i hp
    simp [PromiseQueue.step, PromiseQueue.processQueue, hp]
  · intro es
    exact (PromiseQueue.inv_run es).2.1

/-- Witness for claim C9: a guarded `enqueue` into a busy state only
appends, and a concrete three-event schedule awaits at most one task. -/
theorem promiseQueue_reentrancy_guard_witness :
    (PromiseQueue.step (PromiseQueue.run [.enq 0, .enq 1]) (.enq 2)
        = { PromiseQueue.run [.enq 0, .enq 1] with
              queue := (PromiseQueue.run [.enq 0, .enq 1]).queue ++ [2],
              enqueued := (PromiseQueue.run [.enq 0, .enq 1]).enqueued ++ [2] }) ∧
    (PromiseQueue.run [.enq 0, .enq 1, .enq 2]).awaiting.length ≤ 1 :=
  ⟨promiseQueue_reentrancy_guard.1 (PromiseQueue.run [.enq 0, .enq 1]) 2 (by decide),
   promiseQueue_reentrancy_guard.2 [.enq 0, .enq 1, .enq 2]⟩

/-- Claim C6: submission wraps the operation in a task, records it,
immediately attempts admission, and hands the result handle back in one
synchronous (non-blocking) step, in every scheduler state.  For
`PromiseQueue.enqueue`: the task is always appended to the submission
history (the handle created by the `new Promise` wrapper), and admission
is attempted at once — when the scheduler is free the task starts
immediately and becomes the one awaited, when it is busy nothing starts
and the task waits at the queue tail.  For `PromisePool.add` with a fresh
invocation: the call is always recorded, and the single admission check
either starts the operation immediately (a slot is free) or parks the
call at the waiter-queue tail (pool is full); either way the step is one
atomic synchronous block. -/
theorem submit_enqueues_attempts_admission_and_returns
    (es : List PromiseQueue.Event) (i : Nat)
    (p : PromisePool.State) (j : Nat) (hj : j ∉ p.added) :
    ((PromiseQueue.step (PromiseQueue.run es) (.enq i)).enqueued
        = (PromiseQueue.run es).enqueued ++ [i]) ∧
    ((PromiseQueue.run es).processing = false →
      PromiseQueue.step (PromiseQueue.run es) (.enq i)
        = { PromiseQueue.run es with
              queue := [], processing := true, awaiting := [i],
              enqueued := (PromiseQueue.run es).enqueued ++ [i],
              started := (PromiseQueue.run es).started ++ [i] }) ∧
    ((PromiseQueue.run es).processing = true →
      PromiseQueue.step (PromiseQueue.run es) (.enq i)
        = { PromiseQueue.run es with
              queue := (PromiseQueue.run es).queue ++ [i],
              enqueued := (PromiseQueue.run es).enqueued ++ [i] }) ∧
    (¬ p.running ≥ p.maxConcurrent →
      PromisePool.step p (.call j)
        = { p with running := p.running + 1, executing := p.executing ++ [j],
                   started := p.started ++ [j], added := p.added ++ [j] }) ∧
    (p.running ≥ p.maxConcurrent →
      PromisePool.step p (.call j)
        = { p with queue := p.queue ++ [j], added := p.added ++ [j] }) := by
  obtain ⟨h1, _, _, _⟩ := PromiseQueue.inv_run es
  refine ⟨?_, ?_, ?_, ?_, ?_⟩
  · cases hp : (PromiseQueue.run es).processing with
    | true => simp [PromiseQueue.step, PromiseQueue.processQueue, hp]
    | false =>
        obtain ⟨hq, ha⟩ := h1 hp
        simp [PromiseQueue.step, PromiseQueue.processQueue,
              PromiseQueue.loopIter, hp, hq, ha]
  · intro hp
    obtain ⟨hq, ha⟩ := h1 hp
    simp [PromiseQueue.step, PromiseQueue.processQueue,
          PromiseQueue.loopIter, hp, hq, ha]
  · intro hp
    simp [PromiseQueue.step, PromiseQueue.processQueue, hp]
  · intro hr
    simp [PromisePool.step, hj, hr]
  · intro hr
    simp [PromisePool.step, hj, hr]

/-- Witness for claim C6: an enqueue into the fresh queue starts at once,
and a fresh `add` on a full pool of one parks the second call. -/
theorem submit_enqueues_attempts_admission_and_returns_witness :
    ((PromiseQueue.step (PromiseQueue.run []) (.enq 3)).enqueued
        = (PromiseQueue.run []).enqueued ++ [3]) ∧
    ((PromiseQueue.run []).processing = false →
      PromiseQueue.step (PromiseQueue.run []) (.enq 3)
        = { PromiseQueue.run [] with
              queue := [], processing := true, awaiting := [3],
              enqueued := (PromiseQueue.run []).enqueued ++ [3],
              started := (PromiseQueue.run []).started ++ [3] }) ∧
    ((PromiseQueue.run []).processing = true →
      PromiseQueue.step (PromiseQueue.run []) (.enq 3)
        = { PromiseQueue.run [] with
              queue := (PromiseQueue.run []).queue ++ [3],
              enqueued := (PromiseQueue.run []).enqueued ++ [3] }) ∧
    (¬ (PromisePool.run 1 [.call 0]).running
          ≥ (PromisePool.run 1 [.call 0]).maxConcurrent →
      PromisePool.step (PromisePool.run 1 [.call 0]) (.call 1)
        = { PromisePool.run 1 [.call 0] with
              running := (PromisePool.run 1 [.call 0]).running + 1,
              executing := (PromisePool.run 1 [.call 0]).executing ++ [1],
              started := (PromisePool.run 1 [.call 0]).started ++ [1],
              added := (PromisePool.run 1 [.call 0]).added ++ [1] }) ∧
    ((PromisePool.run 1 [.call 0]).running
          ≥ (PromisePool.run 1 [.call 0]).maxConcurrent →
      PromisePool.step (PromisePool.run 1 [.call 0]) (.call 1)
        = { PromisePool.run 1 [.call 0] with
              queue := (PromisePool.run 1 [.call 0]).queue ++ [1],
              added := (PromisePool.run 1 [.call 0]).added ++ [1] }) :=
  submit_enqueues_attempts_admission_and_returns [] 3
    (PromisePool.run 1 [.call 0]) 1 (by decide)

/-- Claim C2, counterexample: the claim says constructing with
`maxConcurrency < 1` fails immediately, but the `PromisePool` constructor
performs no validation: at the concrete argument `0` (which is `< 1`)
construction returns a normal pool state rather than failing. -/
theorem promisePool_construct_zero_succeeds :
    (0 : Int) < 1 ∧ PromisePool.construct 0 = Except.ok (PromisePool.mk 0) :=
  ⟨by decide, rfl⟩

/-- Claim C2, amended: constructing a `PromisePool` never fails, whatever
the `maxConcurrency` argument (including values `< 1`): the constructor
stores the argument unvalidated, with a running count of zero and an
empty waiter queue. -/
theorem promisePool_construct_never_fails (n : Int) :
    PromisePool.construct n = Except.ok (PromisePool.mk n) ∧
    (PromisePool.mk n).maxConcurrent = n ∧
    (PromisePool.mk n).running = 0 ∧
    (PromisePool.mk n).queue = [] :=
  ⟨rfl, rfl, rfl, rfl⟩

/-- Claim C1 fails on the code: on a pool with `maxConcurrent = 1` there
is a schedule — realizable on the JavaScript event loop — after which two
operations run concurrently.  Call 0 is admitted; call 1 finds the pool
full and parks a resolver; call 0's operation settles, decrementing
`running` to 0 and invoking call 1's resolver; before call 1's suspended
continuation is resumed from the microtask queue, a fresh `add` (call 2)
runs — it sees `running = 0 < 1` and starts at once; then call 1's
continuation resumes and, because `add` never re-checks the limit after
its single `if`, increments `running` and starts too.  Final state: both
calls 1 and 2 executing, `running = 2 > maxConcurrent = 1`. -/
theorem promisePool_limit_exceeded :
    (PromisePool.run 1
        [.call 0, .call 1, .finish 0 (.ok 0), .call 2, .resume 1]).maxConcurrent
      = 1 ∧
    (PromisePool.run 1
        [.call 0, .call 1, .finish 0 (.ok 0), .call 2, .resume 1]).running = 2 ∧
    (PromisePool.run 1
        [.call 0, .call 1, .finish 0 (.ok 0), .call 2, .resume 1]).executing
      = [2, 1] := by
  refine ⟨by decide, by decide, by decide⟩

/-- Claim C8 fails on the code (same slip as C1): after the schedule
`call 0, call 1, finish 0, call 2` on a pool of one, call 1 has been
dequeued-and-resolved and call 2 occupies the slot, so `running = 1` is
not strictly below `maxConcurrent = 1`; yet resuming call 1 starts its
operation anyway — a task is started although `running < N` fails,
refuting the stated "started only if `running < N`" invariant. -/
theorem promisePool_starts_task_without_free_slot :
    ¬ ((PromisePool.run 1 [.call 0, .call 1, .finish 0 (.ok 0), .call 2]).running
        < (PromisePool.run 1
            [.call 0, .call 1, .finish 0 (.ok 0), .call 2]).maxConcurrent) ∧
    (PromisePool.step
        (PromisePool.run 1 [.call 0, .call 1, .finish 0 (.ok 0), .call 2])
        (.resume 1)).started
      = (PromisePool.run 1 [.call 0, .call 1, .finish 0 (.ok 0), .call 2]).started
          ++ [1] := by
  refine ⟨by decide, by decide⟩

/-- Claim C10: when an executing call's operation completes (fulfilling
or rejecting alike), the `finally` block decrements `running` exactly
once, settles that call's handle with its own outcome, removes it from
the executing set, and resolves exactly one parked waiter — the oldest,
when any exists (`take 1`/`drop 1` of the waiter queue); moreover a
second completion of the same call is a no-op, so the decrement happens
exactly once per task. -/
theorem promisePool_completion_bookkeeping
    (s : PromisePool.State) (i : Nat) (o : Outcome)
    (hmem : i ∈ s.executing) (hnd : s.executing.Nodup) :
    (PromisePool.step s (.finish i o)).running = s.running - 1 ∧
    (PromisePool.step s (.finish i o)).done = s.done ++ [(i, o)] ∧
    (PromisePool.step s (.finish i o)).resolvedP
        = s.resolvedP ++ s.queue.take 1 ∧
    (PromisePool.step s (.finish i o)).queue = s.queue.drop 1 ∧
    (PromisePool.step s (.finish i o)).executing = s.executing.erase i ∧
    PromisePool.step (PromisePool.step s (.finish i o)) (.finish i o)
        = PromisePool.step s (.finish i o) := by
  have hout : i ∉ s.executing.erase i := by
    intro hc
    exact absurd (hnd.mem_erase_iff.mp hc).1 (by simp)
  cases hq : s.queue with
  | nil =>
      refine ⟨?_, ?_, ?_, ?_, ?_, ?_⟩ <;>
        simp [PromisePool.step, hmem, hq, hout]
  | cons w ws =>
      refine ⟨?_, ?_, ?_, ?_, ?_, ?_⟩ <;>
        simp [PromisePool.step, hmem, hq, hout]

/-- Witness for claim C10: completing call 0 on a full pool of two with
call 2 parked. -/
theorem promisePool_completion_bookkeeping_witness :
    (PromisePool.step (PromisePool.run 2 [.call 0, .call 1, .call 2])
        (.finish 0 (.err 3))).running
      = (PromisePool.run 2 [.call 0, .call 1, .call 2]).running - 1 ∧
    (PromisePool.step (PromisePool.run 2 [.call 0, .call 1, .call 2])
        (.finish 0 (.err 3))).done
      = (PromisePool.run 2 [.call 0, .call 1, .call 2]).done ++ [(0, .err 3)] ∧
    (PromisePool.step (PromisePool.run 2 [.call 0, .call 1, .call 2])
        (.finish 0 (.err 3))).resolvedP
      = (PromisePool.run 2 [.call 0, .call 1, .call 2]).resolvedP
          ++ (PromisePool.run 2 [.call 0, .call 1, .call 2]).queue.take 1 ∧
    (PromisePool.step (PromisePool.run 2 [.call 0, .call 1, .call 2])
        (.finish 0 (.err 3))).queue
      = (PromisePool.run 2 [.call 0, .call 1, .call 2]).queue.drop 1 ∧
    (PromisePool.step (PromisePool.run 2 [.call 0, .call 1, .call 2])
        (.finish 0 (.err 3))).executing
      = (PromisePool.run 2 [.call 0, .call 1, .call 2]).executing.erase 0 ∧
    PromisePool.step
        (PromisePool.step (PromisePool.run 2 [.call 0, .call 1, .call 2])
          (.finish 0 (.err 3)))
        (.finish 0 (.err 3))
      = PromisePool.step (PromisePool.run 2 [.call 0, .call 1, .call 2])
          (.finish 0 (.err 3)) :=
  promisePool_completion_bookkeeping
    (PromisePool.run 2 [.call 0, .call 1, .call 2]) 0 (.err 3)
    (by decide) (by decide)

theorem PromisePool.run_append (N : Int) (a b : List PromisePool.Event) :
    PromisePool.run N (a ++ b) = b.foldl PromisePool.step (PromisePool.run N a) := by
  simp [PromisePool.run, List.foldl_append]

/-- Submitting `k ≤ N` fresh calls to a fresh pool of `N` admits all of
them at once: each call finds `running < maxConcurrent` and starts
immediately. -/
theorem PromisePool.calls_fill (N k : Nat) (hk : k ≤ N) :
    PromisePool.run (N : Int) (PromisePool.submitCalls k)
      = { maxConcurrent := (N : Int), running := (k : Int), queue := [],
          resolvedP := [], executing := List.range k, done := [],
          started := List.range k, added := List.range k } := by
  induction k with
  | zero => simp [PromisePool.run, PromisePool.mk, PromisePool.submitCalls]
  | succ k ih =>
      have hk' : k ≤ N := Nat.le_of_succ_le hk
      have hlt : ¬ ((k : Int) ≥ (N : Int)) := by
        omega
      rw [PromisePool.submitCalls, List.range_succ, List.map_append]
      rw [PromisePool.run_append]
      rw [show (List.range k).map PromisePool.Event.call
            = PromisePool.submitCalls k from rfl, ih hk']
      simp [PromisePool.step, hlt, List.range_succ]

/-- Claim C7: submitting `maxConcurrency + 1` long-running tasks to a
fresh pool of `N ≥ 1` starts the first `N` immediately (in order) while
the last is parked on the waiter queue; it cannot start before a
completion (resuming it is a no-op while no resolver has been invoked),
and once one of the first tasks completes, its resolver is invoked and
its resumption starts the last task. -/
theorem promisePool_first_maxConcurrent_start_immediately
    (N : Nat) (o : Outcome) (h : 1 ≤ N) :
    (PromisePool.run (N : Int) (PromisePool.submitCalls (N+1))).started
        = List.range N ∧
    (PromisePool.run (N : Int) (PromisePool.submitCalls (N+1))).queue = [N] ∧
    (PromisePool.run (N : Int) (PromisePool.submitCalls (N+1))).running
        = (N : Int) ∧
    PromisePool.step (PromisePool.run (N : Int) (PromisePool.submitCalls (N+1)))
        (.resume N)
      = PromisePool.run (N : Int) (PromisePool.submitCalls (N+1)) ∧
    (PromisePool.step (PromisePool.run (N : Int) (PromisePool.submitCalls (N+1)))
        (.finish 0 o)).started = List.range N ∧
    (PromisePool.step (PromisePool.run (N : Int) (PromisePool.submitCalls (N+1)))
        (.finish 0 o)).resolvedP = [N] ∧
    (PromisePool.step
        (PromisePool.step
          (PromisePool.run (N : Int) (PromisePool.submitCalls (N+1)))
          (.finish 0 o))
        (.resume N)).started = List.range N ++ [N] := by
  have hmem : (0 : Nat) ∈ List.range N := List.mem_range.mpr h
  have hs1 : PromisePool.run (N : Int) (PromisePool.submitCalls (N+1))
      = { maxConcurrent := (N : Int), running := (N : Int), queue := [N],
          resolvedP := [], executing := List.range N, done := [],
          started := List.range N, added := List.range N ++ [N] } := by
    rw [PromisePool.submitCalls, List.range_succ, List.map_append,
        PromisePool.run_append]
    rw [show (List.range N).map PromisePool.Event.call
          = PromisePool.submitCalls N from rfl,
        PromisePool.calls_fill N N le_rfl]
    simp [PromisePool.step]
  rw [hs1]
  refine ⟨rfl, rfl, rfl, ?_, ?_, ?_, ?_⟩
  · simp [PromisePool.step]
  · simp [PromisePool.step, hmem]
  · simp [PromisePool.step, hmem]
  · simp [PromisePool.step, hmem]

/-- Witness for claim C7 at the spec's scenario `maxConcurrency = 2`
with three submissions: tasks 0 and 1 start at once, task 2 is parked,
and task 2 starts after task 0 completes. -/
theorem promisePool_first_maxConcurrent_start_immediately_witness :
    (PromisePool.run (2 : Int) (PromisePool.submitCalls 3)).started
        = List.range 2 ∧
    (PromisePool.run (2 : Int) (PromisePool.submitCalls 3)).queue = [2] ∧
    (PromisePool.run (2 : Int) (PromisePool.submitCalls 3)).running = (2 : Int) ∧
    PromisePool.step (PromisePool.run (2 : Int) (PromisePool.submitCalls 3))
        (.resume 2)
      = PromisePool.run (2 : Int) (PromisePool.submitCalls 3) ∧
    (PromisePool.step (PromisePool.run (2 : Int) (PromisePool.submitCalls 3))
        (.finish 0 (.ok 0))).started = List.range 2 ∧
    (PromisePool.step (PromisePool.run (2 : Int) (PromisePool.submitCalls 3))
        (.finish 0 (.ok 0))).resolvedP = [2] ∧
    (PromisePool.step
        (PromisePool.step
          (PromisePool.run (2 : Int) (PromisePool.submitCalls 3))
          (.finish 0 (.ok 0)))
        (.resume 2)).started = List.range 2 ++ [2] :=
  promisePool_first_maxConcurrent_start_immediately 2 (.ok 0) (by decide)
